import Mathlib

/-!
A shallow embedding of the WASI virtualization layer of this repository:
the in-memory pipe streams (`streams.ts`), the cross-thread syscall
transport (`ServiceConnection.handleWasiCallMessage` and
`HostConnection.doCall`), the syscall dispatcher (`DeviceWasiService`:
`fd_close`, `fd_readdir`, `getDeviceDriverWithPath`, `getFileDescriptor`)
and the host-side `poll_oneoff` fast path.

Machine integers: sizes and errno values are modelled as `Nat`; the
timeouts of clock subscriptions are modelled as `Int` (they are signed
bigints in the source).  Byte arrays are modelled as `List Nat`.
-/

/-! ## WASI errno and event-type constants (standard WASI preview-1 ABI) -/

namespace Errno

def success : Nat := 0
def badf : Nat := 8
def badmsg : Nat := 9
def inval : Nat := 28
def noent : Nat := 44
def nosys : Nat := 52
def perm : Nat := 63
def timedout : Nat := 73

end Errno

namespace Eventtype

def clock : Nat := 0
def fd_read : Nat := 1
def fd_write : Nat := 2

end Eventtype

deriving instance DecidableEq for Except

/-- A typed WASI error carrying an errno, as thrown by the dispatcher
(`WasiError` in `wasi.ts`). -/
structure WasiError where
  errno : Nat
deriving DecidableEq

/-- An error escaping a driver call: either a typed `WasiError`, a
`vscode.FileSystemError` (whose `code2Wasi` translation we carry as the
resulting errno), or any other exception. -/
inductive HostErr where
  | wasi (e : Nat)
  | fsError (mapped : Nat)
  | other
deriving DecidableEq

/-- `handleError` of `DeviceWasiService.create`: a `WasiError` yields its
errno, a `vscode.FileSystemError` is translated via `code2Wasi.asErrno`,
and anything else yields the default errno (`Errno.badf` unless
overridden at the call site). -/
def handleError (e : HostErr) (dflt : Nat := Errno.badf) : Nat :=
  match e with
  | .wasi e => e
  | .fsError mapped => mapped
  | .other => dflt

/-! ## Cross-thread call transport

`HostConnection.doCall` performs `Atomics.wait` on the synchronization
cell of the parameter buffer and turns the outcome into an errno; the
service side (`ServiceConnection.handleWasiCallMessage`) dispatches the
call, writes an errno into the buffer and stores 1 into the cell. -/

/-- The possible results of `Atomics.wait(sync, 0, 0, timeout)`. -/
inductive WaitOutcome where
  | ok
  | timedOut
  | notEqual
deriving DecidableEq

namespace HostConnection

/-- `HostConnection.doCall`: `w` is the wait outcome, `syncValue` the
value loaded from the synchronization cell in the `not-equal` case, and
`bufErrno` the errno sitting in the shared parameter buffer. -/
def doCall (w : WaitOutcome) (syncValue : Int) (bufErrno : Nat) : Nat :=
  match w with
  | .timedOut => Errno.timedout
  | .notEqual => if syncValue ≠ 1 then Errno.nosys else bufErrno
  | .ok => bufErrno

end HostConnection

/-- The outcome of the service-side dispatch
`await this.wasiService[func.name](...)`: it resolves with an errno,
rejects with a `WasiError`, or rejects with any other error. -/
inductive DispatchOutcome where
  | ok (e : Nat)
  | wasiErr (e : Nat)
  | otherErr
deriving DecidableEq

namespace ServiceConnection

/-- `ServiceConnection.handleWasiCallMessage`, reduced to its effect on
the shared parameter buffer: the returned pair is (errno written at
`Offsets.errno_index`, value stored into the synchronization cell). -/
def handleWasiCallMessage (d : DispatchOutcome) : Nat × Int :=
  let errno :=
    match d with
    | .ok e => e
    | .wasiErr e => e
    | .otherErr => Errno.inval
  (errno, 1)

end ServiceConnection

/-! ## Pipe streams (`streams.ts`)

`WritableStream` keeps a list of byte chunks and a fill level.  The
capacity constant `BufferSize` is 16384 bytes. -/

def BufferSize : Nat := 16384

/-- The buffered data of a `WritableStream`: the queued chunks and the
`fillLevel` counter. -/
structure Pipe where
  chunks : List (List Nat)
  fillLevel : Nat
deriving DecidableEq

namespace WritableStream

/-- Outcome of the synchronous part of `WritableStream.write`: either the
chunk is enqueued immediately, or the writer suspends on
`awaitFillLevel(targetFillLevel)`. -/
inductive WriteOutcome where
  | done (s : Pipe)
  | blocked (targetFillLevel : Nat)
deriving DecidableEq

/-- `WritableStream.write(chunk)`: if `fillLevel + chunk.byteLength ≤
BufferSize` the chunk is pushed and the fill level raised; otherwise the
writer suspends waiting for fill level `Math.max(0, BufferSize -
chunk.byteLength)` (natural subtraction models the clamp to 0). -/
def write (s : Pipe) (c : List Nat) : WriteOutcome :=
  if s.fillLevel + c.length ≤ BufferSize then
    .done ⟨s.chunks ++ [c], s.fillLevel + c.length⟩
  else
    .blocked (BufferSize - c.length)

/-- The resumption of a suspended `write` after `awaitFillLevel`
resolves: the source throws `Invalid state` when the fill level still
exceeds the target, and otherwise enqueues the whole chunk. -/
def resumeWrite (s : Pipe) (c : List Nat) (target : Nat) : Except Unit Pipe :=
  if target < s.fillLevel then .error ()
  else .ok ⟨s.chunks ++ [c], s.fillLevel + c.length⟩

/-- Errors thrown by the synchronous part of `WritableStream.read`: a
`RangeError` from an out-of-bounds `TypedArray.set`, and the
`Invalid state` error thrown when no data is buffered. -/
inductive ReadErr where
  | rangeError
  | invalidState
deriving DecidableEq

/-- One iteration step of the third branch of `read` (the branch that the
source itself flags with `console.warn("This code is definitely
wrong!!")`).  The loop shifts the head chunk, breaks when `offset +
chunk.byteLength > maxBytes` (dropping the already-shifted chunk), and
otherwise copies the chunk into the result array of size `rsize`,
throwing a `RangeError` when the copy does not fit.  The loop guard
`i < this.chunks.length` is re-evaluated against the shrinking array.
Returns the written chunks, the remaining chunk queue, the final offset
and the final fill level. -/
def readLoop (chunks : List (List Nat)) (i offset fill maxB rsize : Nat) :
    Except ReadErr (List (List Nat) × List (List Nat) × Nat × Nat) :=
  match chunks with
  | [] => .ok ([], [], offset, fill)
  | c :: rest =>
    if i < (c :: rest).length then
      if maxB < offset + c.length then
        -- break: `c` has already been shifted off and is lost
        .ok ([], rest, offset, fill)
      else if rsize < offset + c.length then
        .error .rangeError
      else
        match readLoop rest (i + 1) (offset + c.length) (fill - c.length) maxB rsize with
        | .error e => .error e
        | .ok (written, remaining, o, f) => .ok (c :: written, remaining, o, f)
    else
      .ok ([], c :: rest, offset, fill)

/-- The synchronous part of `WritableStream.read(size?)`, entered once
data is buffered.  Mirrors the three branches of the source: all data
(when `maxBytes` is undefined or exceeds `fillLevel`), head-chunk split
(head chunk bigger than `maxBytes`), and the flagged-wrong third branch.
The returned byte list is the content of the freshly allocated (and so
zero-initialized) `Uint8Array` result. -/
def readSync (s : Pipe) (maxBytes : Option Nat) : Except ReadErr (List Nat × Pipe) :=
  match s.chunks with
  | [] => .error .invalidState
  | c0 :: rest =>
    match maxBytes with
    | none =>
      let total := (s.chunks.map List.length).sum
      if total ≤ s.fillLevel then
        .ok (s.chunks.foldr (· ++ ·) [] ++ List.replicate (s.fillLevel - total) 0, ⟨[], 0⟩)
      else .error .rangeError
    | some mb =>
      if s.fillLevel < mb then
        let total := (s.chunks.map List.length).sum
        if total ≤ s.fillLevel then
          .ok (s.chunks.foldr (· ++ ·) [] ++ List.replicate (s.fillLevel - total) 0, ⟨[], 0⟩)
        else .error .rangeError
      else if mb < c0.length then
        .ok (c0.take mb, ⟨c0.drop mb :: rest, s.fillLevel - mb⟩)
      else
        match readLoop (c0 :: rest) 0 0 s.fillLevel mb c0.length with
        | .error e => .error e
        | .ok (written, remaining, offset, fill) =>
          .ok (written.foldr (· ++ ·) [] ++ List.replicate (c0.length - offset) 0,
               ⟨remaining, fill⟩)

/-- A sequence of immediate writes (each must fit without suspending). -/
def runWrites (s : Pipe) : List (List Nat) → Option Pipe
  | [] => some s
  | c :: cs =>
    match write s c with
    | .done s' => runWrites s' cs
    | .blocked _ => none

/-- A sequence of reads, each entered with data buffered; returns the
concatenation of the returned byte arrays and the final pipe state. -/
def runReads (s : Pipe) : List (Option Nat) → Except ReadErr (List Nat × Pipe)
  | [] => .ok ([], s)
  | mb :: rest =>
    match readSync s mb with
    | .error e => .error e
    | .ok (bytes, s') =>
      match runReads s' rest with
      | .error e => .error e
      | .ok (more, s'') => .ok (bytes ++ more, s'')

end WritableStream

/-! ## Pipe lifecycle: suspension, wake-up and `destroy`

To settle the destruction claims we refine the pipe model with the two
waiter queues of `WritableStream` (`awaitForFillLevel`, `awaitForData`)
and the state of each `CompletablePromise`. -/

namespace WritableStream

/-- The state of a `CompletablePromise` created by `awaitFillLevel` or
`awaitData`: still pending, resolved, or rejected with `DestroyError`. -/
inductive PromiseState where
  | pending
  | resolved
  | rejectedDestroy
deriving DecidableEq

/-- The full mutable state of a `WritableStream`: buffered data plus the
waiter queues.  `promises` maps waiter ids to promise states; `nextId`
is the next fresh id. -/
structure PipeM where
  chunks : List (List Nat)
  fillLevel : Nat
  fillWaiters : List (Nat × Nat)
  dataWaiters : List Nat
  promises : List (Nat × PromiseState)
  nextId : Nat
deriving DecidableEq

/-- A fresh stream, as produced by the constructor. -/
def PipeM.init : PipeM := ⟨[], 0, [], [], [], 0⟩

/-- Look up a promise state (unknown ids read as pending). -/
def promiseState (s : PipeM) (id : Nat) : PromiseState :=
  match s.promises.find? (fun p => p.1 == id) with
  | some p => p.2
  | none => .pending

/-- The effect of settling promise `id` on a single table entry:
`CompletablePromise.resolve`/`reject` are no-ops on an already settled
promise, so only a pending entry with that id changes. -/
def settleOne (id : Nat) (st : PromiseState) (p : Nat × PromiseState) :
    Nat × PromiseState :=
  if p.1 == id then
    match p.2 with
    | .pending => (p.1, st)
    | _ => p
  else p

/-- Settle a promise across the table. -/
def settle (ps : List (Nat × PromiseState)) (id : Nat) (st : PromiseState) :
    List (Nat × PromiseState) :=
  ps.map (settleOne id st)

/-- `signalData`: shift the first data waiter (if any) and resolve it.
(The write to the shared byte-count cell is not modelled.) -/
def signalData (s : PipeM) : PipeM :=
  match s.dataWaiters with
  | [] => s
  | id :: rest => { s with dataWaiters := rest, promises := settle s.promises id .resolved }

/-- `signalSpace`: if the head fill-level waiter's target is at or above
the current fill level, shift and resolve it. -/
def signalSpace (s : PipeM) : PipeM :=
  match s.fillWaiters with
  | [] => s
  | (target, id) :: rest =>
    if target < s.fillLevel then s
    else { s with fillWaiters := rest, promises := settle s.promises id .resolved }

/-- Outcome of starting a `write`: completed synchronously, or suspended
as waiter `id` on the given target fill level. -/
inductive WriteStart where
  | done (s : PipeM)
  | suspended (id target : Nat) (s : PipeM)
deriving DecidableEq

/-- `WritableStream.write(chunk)`, phase 1 (up to the first `await`). -/
def writeStart (s : PipeM) (c : List Nat) : WriteStart :=
  if s.fillLevel + c.length ≤ BufferSize then
    .done (signalData { s with chunks := s.chunks ++ [c], fillLevel := s.fillLevel + c.length })
  else
    let target := BufferSize - c.length
    .suspended s.nextId target
      { s with fillWaiters := s.fillWaiters ++ [(target, s.nextId)],
               promises := s.promises ++ [(s.nextId, .pending)],
               nextId := s.nextId + 1 }

/-- `WritableStream.write(chunk)`, phase 2 (after the awaited promise
settles).  `none` when the promise is still pending (the writer stays
suspended); a rejection with `DestroyError` is caught and the write
returns with the chunk discarded; on resolution the source throws
`Invalid state` if the fill level still exceeds the target, else
enqueues the chunk. -/
def writeResume (s : PipeM) (id : Nat) (c : List Nat) (target : Nat) :
    Option (Except Unit PipeM) :=
  match promiseState s id with
  | .pending => none
  | .rejectedDestroy => some (.ok s)
  | .resolved =>
    if target < s.fillLevel then some (.error ())
    else some (.ok (signalData { s with chunks := s.chunks ++ [c],
                                        fillLevel := s.fillLevel + c.length }))

/-- Outcome of starting a `read`: data is buffered and the synchronous
body runs, or the reader suspends as waiter `id` on `awaitData`. -/
inductive ReadStart where
  | immediate (s : PipeM)
  | suspended (id : Nat) (s : PipeM)
deriving DecidableEq

/-- `WritableStream.read(size?)`, phase 1: with no buffered chunk the
reader pushes a fresh promise onto `awaitForData` and suspends. -/
def readStart (s : PipeM) : ReadStart :=
  match s.chunks with
  | [] =>
    .suspended s.nextId
      { s with dataWaiters := s.dataWaiters ++ [s.nextId],
               promises := s.promises ++ [(s.nextId, .pending)],
               nextId := s.nextId + 1 }
  | _ => .immediate s

/-- `WritableStream.read(size?)`, phase 2 (after the awaited promise
settles).  `none` when the promise is still pending; a rejection with
`DestroyError` is caught and the read returns an empty byte array; on
resolution the synchronous body `readSync` runs on the current buffer
(throwing `Invalid state` if it is still empty).  The pipe state is
returned next to the bytes (`signalSpace` effects on the waiter queues
are irrelevant here because a successful read path is only reached with
the returned data). -/
def readResume (s : PipeM) (id : Nat) (maxBytes : Option Nat) :
    Option (Except ReadErr (List Nat × Pipe)) :=
  match promiseState s id with
  | .pending => none
  | .rejectedDestroy => some (.ok ([], ⟨s.chunks, s.fillLevel⟩))
  | .resolved => some (readSync ⟨s.chunks, s.fillLevel⟩ maxBytes)

/-- `WritableStream.destroy()`: clears the buffer, rejects every promise
queued on `awaitForFillLevel` with a `DestroyError` and clears that
queue, and rejects every promise queued on `awaitForData` (the source
does not clear `awaitForData`). -/
def destroy (s : PipeM) : PipeM :=
  let ps := s.fillWaiters.foldl (fun ps w => settle ps w.2 .rejectedDestroy) s.promises
  let ps := s.dataWaiters.foldl (fun ps id => settle ps id .rejectedDestroy) ps
  { s with chunks := [], fillLevel := 0, fillWaiters := [], promises := ps }

end WritableStream

/-! ## Descriptor table and `fd_close` (`DeviceWasiService`)

The `FileDescriptors` table itself lives in `fileDescriptor.ts`, which
is not part of the snapshot. -/

/-- Modelled from the spec: a file descriptor as described in §3 of the
design (numeric ID, owning device ID, rights bitmask, optional disposer
callback); `fileDescriptor.ts` is not in the snapshot.  `hasDispose`
records whether the optional `dispose` callback is present. -/
structure FileDescriptor where
  fd : Nat
  deviceId : Nat
  baseRights : Nat
  hasDispose : Bool
deriving DecidableEq

/-- Modelled from the spec: the descriptor table of §4.1
(`add`/`get`/`delete`); `fileDescriptor.ts` is not in the snapshot.  We
model it as the list of live descriptors keyed by their numeric ID. -/
def FdTable := List FileDescriptor

/-- Modelled from the spec: `FileDescriptors.get(id)` returns the live
descriptor with that ID, if any. -/
def tableGet (t : FdTable) (fd : Nat) : Option FileDescriptor :=
  List.find? (fun d => d.fd == fd) t

/-- Modelled from the spec: `FileDescriptors.delete(descriptor)` removes
the descriptor from the table. -/
def tableDelete (t : FdTable) (d : FileDescriptor) : FdTable :=
  List.filter (fun x => x.fd != d.fd) t

/-- `getFileDescriptor` of `DeviceWasiService.create`: looks the ID up in
the table and throws `WasiError(Errno.badf)` when it is unknown. -/
def getFileDescriptor (t : FdTable) (fd : Nat) : Except WasiError FileDescriptor :=
  match tableGet t fd with
  | none => .error ⟨Errno.badf⟩
  | some d => .ok d

/-- The result of the `fd_close` service entry: the errno outcome (
`Except.error` models the `WasiError` thrown by `getFileDescriptor`
before the `try`, which the transport layer converts to its errno), the
descriptor table after the call, and whether the descriptor's disposer
ran. -/
structure CloseResult where
  result : Except WasiError Nat
  table : FdTable
  disposerRan : Bool

/-- `DeviceWasiService.fd_close`: resolves the descriptor (throwing
`badf` if unknown), calls the driver's `fd_close` inside `try`/`catch`
(errors become errnos via `handleError`), and in the `finally` branch
deletes the descriptor from the table and runs its disposer — so the
removal happens even when the driver's close throws.  `closeOutcome`
abstracts the driver call. -/
def fd_close_impl (t : FdTable) (closeOutcome : FileDescriptor → Except HostErr Unit)
    (fd : Nat) : CloseResult :=
  match tableGet t fd with
  | none => ⟨.error ⟨Errno.badf⟩, t, false⟩
  | some d =>
    let errno :=
      match closeOutcome d with
      | .ok _ => Errno.success
      | .error e => handleError e
    ⟨.ok errno, tableDelete t d, d.hasDispose⟩

/-! ## Path normalization and cross-mount translation

`getDeviceDriverWithPath` of `DeviceWasiService.create` consults the
composing root driver when a relative path normalizes outside the
current mount.  The helpers it uses (`isAbsolute`/`normalize` from
`path.ts`, `RootFileSystemDeviceDriver.makeVirtualPath`,
`FileDescriptors.getRoot`) are not in the snapshot and are modelled from
the spec. -/

/-- Split a character list on `/` separators. -/
def splitOnSlash : List Char → List Char → List (List Char)
  | [], acc => [acc.reverse]
  | c :: rest, acc =>
    if c = '/' then acc.reverse :: splitOnSlash rest []
    else splitOnSlash rest (c :: acc)

/-- One step of segment normalization over a reversed segment stack:
empty and `.` segments are dropped, `..` pops a previous segment when
one is available (and is kept when the path already escaped), any other
segment is pushed. -/
def normStep (stack : List (List Char)) (seg : List Char) : List (List Char) :=
  if seg = [] ∨ seg = ['.'] then stack
  else if seg = ['.', '.'] then
    match stack with
    | [] => [['.', '.']]
    | top :: rest => if top = ['.', '.'] then seg :: stack else rest
  else seg :: stack

/-- Join segments with `/` separators. -/
def joinSlash : List (List Char) → List Char
  | [] => []
  | [s] => s
  | s :: rest => s ++ '/' :: joinSlash rest

/-- Modelled from the spec: `normalize` of `path.ts` (not in the
snapshot, imported there as `normalizePath`), per §4.3's normalization rules — collapse `.`, resolve `..`,
keep leading `..` segments of a relative path that escapes. -/
def normalizePath (p : String) : String :=
  let cs := p.data
  let abs := match cs with | '/' :: _ => true | _ => false
  let segs := ((splitOnSlash cs []).foldl normStep []).reverse
  let body := joinSlash segs
  if abs then String.mk ('/' :: body)
  else if body = [] then "." else String.mk body

/-- Modelled from the spec: `isAbsolute` of `path.ts` (not in the
snapshot): a path is absolute when it starts with `/`. -/
def isAbsolute (p : String) : Bool :=
  match p.data with | '/' :: _ => true | _ => false

/-- `path.startsWith('..')` on the normalized path. -/
def startsWithDotDot (p : String) : Bool :=
  match p.data with | '.' :: '.' :: _ => true | _ => false

/-- Which driver a path-taking syscall ends up addressed to. -/
inductive DriverRef where
  | current
  | virtualRoot
deriving DecidableEq

/-- The ambient state `getDeviceDriverWithPath` consults: whether the
descriptor's own driver is a `FileSystemDeviceDriver`, whether it *is*
the composing root driver, whether a composing root driver exists at
all, the root driver's `makeVirtualPath` translation for the current
driver (modelled from the spec: `rootFileSystemDriver.ts` is not in the
snapshot — it returns the unified-namespace path when some mount
contains the resolved target, `none` otherwise), and the root driver's
root descriptor in the table (`FileDescriptors.getRoot`). -/
structure PathCtx where
  currentIsFs : Bool
  currentIsVirtualRoot : Bool
  hasVirtualRoot : Bool
  makeVirtualPath : String → Option String
  rootDescriptor : Option FileDescriptor

/-- `getDeviceDriverWithPath` of `DeviceWasiService.create`: for a
relative path on a non-root filesystem driver (with a composing root
present), the path is normalized; if it starts with `..` the root
driver's virtual-path translation is attempted, throwing
`WasiError(Errno.noent)` when no mount contains the target or when the
root driver has no root descriptor; otherwise the call stays on the
current driver with the (possibly normalized) path. -/
def getDeviceDriverWithPath (ctx : PathCtx) (fdesc : FileDescriptor) (path : String) :
    Except WasiError (DriverRef × FileDescriptor × String) :=
  if !isAbsolute path && ctx.hasVirtualRoot && !ctx.currentIsVirtualRoot && ctx.currentIsFs then
    let path := normalizePath path
    if startsWithDotDot path then
      match ctx.makeVirtualPath path with
      | none => .error ⟨Errno.noent⟩
      | some virtualPath =>
        match ctx.rootDescriptor with
        | none => .error ⟨Errno.noent⟩
        | some rootDescriptor => .ok (.virtualRoot, rootDescriptor, virtualPath)
    else .ok (.current, fdesc, path)
  else .ok (.current, fdesc, path)

/-! ## `fd_readdir` pagination (`DeviceWasiService.fd_readdir`) -/

/-- Modelled from the spec: `Dirent.size` of `wasi.ts` (not in the
snapshot) is the size of the fixed dirent header per the standard WASI
preview-1 ABI: `d_next : u64`, `d_ino : u64`, `d_namlen : u32`,
`d_type : u8` plus padding — 24 bytes. -/
def direntSize : Nat := 24

/-- A directory entry as delivered by a driver's `fd_readdir`
(`ReaddirEntry` of `deviceDriver.ts`); `d_name` holds the UTF-8 bytes of
the name. -/
structure ReaddirEntry where
  d_ino : Nat
  d_type : Nat
  d_name : List Nat
deriving DecidableEq

/-- The packing loop of `fd_readdir` (lines 396–410), applied to the
entries from the cookie index on: packs entries while the remaining
space holds a dirent header, charging 24 bytes plus the (possibly
truncated) name per entry.  Returns how many entries were packed and how
many buffer bytes they consumed (`ptr - buf_ptr`). -/
def packList : List ReaddirEntry → Nat → Nat × Nat
  | [], _ => (0, 0)
  | e :: rest, spaceLeft =>
    if direntSize ≤ spaceLeft then
      let after := spaceLeft - direntSize
      let sfn := min after e.d_name.length
      let r := packList rest (after - sfn)
      (r.1 + 1, direntSize + sfn + r.2)
    else (0, 0)

/-- The observable result of one `fd_readdir` service call for a fixed
descriptor: the returned errno, the value written to the used-size
output, the entries packed into the buffer (in order), the `d_next`
value of the last packed dirent (equivalently the final loop index), and
the cached snapshot (`$directoryEntries`) after the call. -/
structure ReaddirResult where
  errno : Nat
  bufUsed : Nat
  packed : List ReaddirEntry
  nextCookie : Nat
  cache : Option (List ReaddirEntry)
deriving DecidableEq

/-- `DeviceWasiService.fd_readdir` (after the rights and directory
assertions), for one descriptor: a nonzero cookie with no cached
snapshot reports 0 used bytes and success; cookie 0 snapshots the
driver's listing into the cache; the packing loop runs from the cookie
index; on exhaustion the used size is the packed byte count and the
cache is discarded, otherwise the used size is the full buffer length. -/
def fd_readdir_step (cache : Option (List ReaddirEntry)) (driverList : List ReaddirEntry)
    (cookie bufLen : Nat) : ReaddirResult :=
  if cookie ≠ 0 ∧ cache = none then
    ⟨Errno.success, 0, [], cookie, cache⟩
  else
    let entries := if cookie = 0 then driverList else cache.getD []
    let r := packList (entries.drop cookie) bufLen
    if cookie + r.1 = entries.length then
      ⟨Errno.success, r.2, (entries.drop cookie).take r.1, cookie + r.1, none⟩
    else
      ⟨Errno.success, bufLen, (entries.drop cookie).take r.1, cookie + r.1, some entries⟩

/-- The pagination protocol of the claim: call `fd_readdir` with the
given cookie, then repeatedly with the last returned `d_next` cookie,
stopping when the call discards the cache (exhaustion).  Returns the
concatenation of the packed entries over all calls and the final cache;
`fuel` bounds the number of calls. -/
def runPagination (cache : Option (List ReaddirEntry)) (driverList : List ReaddirEntry)
    (cookie bufLen : Nat) : Nat → List ReaddirEntry × Option (List ReaddirEntry)
  | 0 => ([], cache)
  | fuel + 1 =>
    let r := fd_readdir_step cache driverList cookie bufLen
    match r.cache with
    | none => (r.packed, none)
    | some c =>
      let rest := runPagination (some c) driverList r.nextCookie bufLen fuel
      (r.packed ++ rest.1, rest.2)

/-! ## Host-side `poll_oneoff` fast path (`WasiHost.create`) -/

/-- A decoded WASI subscription, discriminated as in the host-side scan:
a clock subscription (with its signed nanosecond timeout and the
`subscription_clock_abstime` flag), a read subscription on a file
descriptor, or a write subscription. -/
inductive Subscr where
  | clock (userdata : Nat) (timeout : Int) (abstime : Bool)
  | fdRead (userdata : Nat) (fd : Nat)
  | fdWrite (userdata : Nat) (fd : Nat)
deriving DecidableEq

/-- A WASI event record as written by `Event.write`. -/
structure EventRec where
  userdata : Nat
  type : Nat
  error : Nat
  nbytes : Int
deriving DecidableEq

namespace WasiHost

/-- One step of the scan over the subscription list (lines 1294–1318):
a relative clock with timeout ≤ 0 marks the call instant, any other
clock disables the fast path; a read subscription on a descriptor other
than stdin (fd 0) disables the fast path; anything else disables it. -/
def scanStep (st : Bool × Bool) (s : Subscr) : Bool × Bool :=
  match s with
  | .clock _ t abstime =>
    if t ≤ 0 ∧ abstime = false then (true, st.2) else (st.1, false)
  | .fdRead _ fd => if fd ≠ 0 then (st.1, false) else st
  | .fdWrite _ _ => (st.1, false)

/-- The full scan: returns `(instant, fastpath)`. -/
def scanSubs (subs : List Subscr) : Bool × Bool :=
  subs.foldl scanStep (false, true)

/-- The fast-path event loop (lines 1331–1365): every clock subscription
yields an immediate success clock event; a read subscription waits on
the shared byte-count cell unless the call is instant and yields a
success read event carrying the observed count, or no event at all when
the observed count is ≤ 0; any other subscription would hit the `throw
new Error("Impossible case on the fastpath")`.  `readable` is the value
loaded from the shared cell. -/
def pollFastLoop (readable : Int) : List Subscr → Except Unit (List EventRec)
  | [] => .ok []
  | .clock u _ _ :: rest =>
    match pollFastLoop readable rest with
    | .error e => .error e
    | .ok evs => .ok (⟨u, Eventtype.clock, Errno.success, 0⟩ :: evs)
  | .fdRead u _ :: rest =>
    if readable ≤ 0 then pollFastLoop readable rest
    else
      match pollFastLoop readable rest with
      | .error e => .error e
      | .ok evs => .ok (⟨u, Eventtype.fd_read, Errno.success, readable⟩ :: evs)
  | .fdWrite _ _ :: _ => .error ()

/-- The observable outcome of the host-side `poll_oneoff`: the fast path
writes the events and their count locally and returns success without a
cross-thread round trip; `slow` marks the delegated
`connection.call(poll_oneoff, ...)` round trip; `threw` marks the
impossible-case throw. -/
inductive PollOutcome where
  | fast (events : List EventRec) (resultSize : Nat) (errno : Nat)
  | slow
  | threw
deriving DecidableEq

/-- `WasiHost.poll_oneoff` (lines 1287–1369): scan the subscriptions; if
any of them disqualifies the fast path, delegate the whole call across
the thread boundary; otherwise run the fast loop, write the events into
the output buffer, store their count at `result_size_ptr` and return
success. -/
def poll_oneoff_host (subs : List Subscr) (readable : Int) : PollOutcome :=
  let sc := scanSubs subs
  if sc.2 = false then .slow
  else
    match pollFastLoop readable subs with
    | .error _ => .threw
    | .ok evs => .fast evs evs.length Errno.success

end WasiHost

/-! ## Theorems -/

/-- C2: every cross-thread syscall terminates in a WASI errno on the
calling side (`doCall` is a total function into errno values): a
timed-out wait yields `Errno.timedout`; a `not-equal` wait whose loaded
synchronization value is not the resolved value 1 yields `Errno.nosys`;
otherwise (`ok`, or `not-equal` with value 1) the errno in the shared
parameter buffer is returned.  The service side writes an errno for
every dispatch outcome — the dispatched errno, a thrown `WasiError`'s
errno, or `Errno.inval` for any other exception — and always stores 1
into the synchronization cell. -/
theorem c2_transport_always_errno (v : Int) (e : Nat) (d : DispatchOutcome) :
    HostConnection.doCall .timedOut v e = Errno.timedout ∧
    (v ≠ 1 → HostConnection.doCall .notEqual v e = Errno.nosys) ∧
    HostConnection.doCall .notEqual 1 e = e ∧
    HostConnection.doCall .ok v e = e ∧
    (ServiceConnection.handleWasiCallMessage d).2 = 1 ∧
    ServiceConnection.handleWasiCallMessage (.ok e) = (e, 1) ∧
    ServiceConnection.handleWasiCallMessage (.wasiErr e) = (e, 1) ∧
    ServiceConnection.handleWasiCallMessage .otherErr = (Errno.inval, 1) := by
  refine ⟨rfl, ?_, ?_, rfl, ?_, rfl, rfl, rfl⟩
  · intro hv
    simp [HostConnection.doCall, hv]
  · simp [HostConnection.doCall]
  · cases d <;> rfl

/-- Witness for C2 at concrete inputs. -/
theorem c2_transport_always_errno_witness :
    (0 : Int) ≠ 1 ∧ HostConnection.doCall .notEqual 0 5 = Errno.nosys := by
  have h := c2_transport_always_errno 0 5 .otherErr
  exact ⟨by decide, h.2.1 (by decide)⟩

/-- C7: an `fd_readdir` call with a cookie greater than zero and no
cached directory snapshot writes 0 to the used-size output and returns
`Errno.success` (end-of-listing), packing nothing and leaving no
cache. -/
theorem c7_readdir_stale_cookie_success (driverList : List ReaddirEntry)
    (cookie bufLen : Nat) (h : 0 < cookie) :
    fd_readdir_step none driverList cookie bufLen =
      ⟨Errno.success, 0, [], cookie, none⟩ := by
  have hne : cookie ≠ 0 := Nat.pos_iff_ne_zero.mp h
  simp [fd_readdir_step, hne]

/-- Witness for C7 at concrete inputs. -/
theorem c7_readdir_stale_cookie_success_witness :
    0 < 2 ∧ fd_readdir_step none [⟨1, 3, [97]⟩] 2 100 =
      ⟨Errno.success, 0, [], 2, none⟩ :=
  ⟨by decide, c7_readdir_stale_cookie_success [⟨1, 3, [97]⟩] 2 100 (by decide)⟩

/-- C9: a `poll_oneoff` whose subscription list is a single relative
(non-abstime) clock subscription with timeout ≤ 0 takes the fast path
(no cross-thread round trip), produces exactly one clock event with
errno success, stores 1 as the result size and returns
`Errno.success`. -/
theorem c9_poll_single_zero_clock (u : Nat) (t : Int) (r : Int) (h : t ≤ 0) :
    WasiHost.poll_oneoff_host [Subscr.clock u t false] r =
      .fast [⟨u, Eventtype.clock, Errno.success, 0⟩] 1 Errno.success := by
  simp [WasiHost.poll_oneoff_host, WasiHost.scanSubs, WasiHost.scanStep, h,
    WasiHost.pollFastLoop]

/-- Witness for C9 at concrete inputs. -/
theorem c9_poll_single_zero_clock_witness :
    (0 : Int) ≤ 0 ∧ WasiHost.poll_oneoff_host [Subscr.clock 7 0 false] 0 =
      .fast [⟨7, Eventtype.clock, Errno.success, 0⟩] 1 Errno.success :=
  ⟨by decide, c9_poll_single_zero_clock 7 0 0 (by decide)⟩

/-- C10: a write whose chunk is strictly larger than the 16384-byte
capacity suspends with target fill level clamped to 0, and once the
buffer is fully drained the resumption enqueues the entire chunk, after
which the fill level equals the chunk length and exceeds the capacity —
the capacity gates when a write may proceed, not how many bytes may be
buffered. -/
theorem c10_oversized_write_exceeds_capacity (s : Pipe) (c : List Nat)
    (ch : List (List Nat)) (h : BufferSize < c.length) :
    WritableStream.write s c = .blocked 0 ∧
    WritableStream.resumeWrite ⟨ch, 0⟩ c 0 = .ok ⟨ch ++ [c], c.length⟩ ∧
    BufferSize < (Pipe.mk (ch ++ [c]) c.length).fillLevel := by
  refine ⟨?_, ?_, h⟩
  · have h1 : ¬ s.fillLevel + c.length ≤ BufferSize := by omega
    have h2 : BufferSize - c.length = 0 := by omega
    simp [WritableStream.write, h1, h2]
  · simp [WritableStream.resumeWrite]

/-- Witness for C10 at a concrete oversized chunk (16385 bytes). -/
theorem c10_oversized_write_exceeds_capacity_witness :
    BufferSize < (List.replicate 16385 (0 : Nat)).length ∧
    WritableStream.write ⟨[], 0⟩ (List.replicate 16385 (0 : Nat)) = .blocked 0 ∧
    WritableStream.resumeWrite ⟨[], 0⟩ (List.replicate 16385 (0 : Nat)) 0 =
      .ok ⟨[] ++ [List.replicate 16385 (0 : Nat)], (List.replicate 16385 (0 : Nat)).length⟩ ∧
    BufferSize <
      (Pipe.mk ([] ++ [List.replicate 16385 (0 : Nat)])
        (List.replicate 16385 (0 : Nat)).length).fillLevel := by
  have hlen : BufferSize < (List.replicate 16385 (0 : Nat)).length := by
    rw [List.length_replicate]
    norm_num [BufferSize]
  have h := c10_oversized_write_exceeds_capacity ⟨[], 0⟩
    (List.replicate 16385 (0 : Nat)) [] hlen
  exact ⟨hlen, h.1, h.2.1, h.2.2⟩

/-- C1 (code bug): the byte-for-byte round trip fails.  With writes of
the chunks `[10]`, `[20, 21]`, `[30]` (4 bytes in total, well under the
capacity, so every write completes immediately) followed by `read(2)`
and `read()`, the reads return `[10]` and `[30, 0, 0]`: the branch of
`read` that the source itself flags with `console.warn("This code is
definitely wrong!!")` drops the chunk `[20, 21]` without returning it,
and the final unbounded read pads with zeros because the fill level
still counts the lost bytes.  The concatenation of the reads differs
from the concatenation of the writes. -/
theorem c1_roundtrip_lost_chunk :
    WritableStream.runWrites ⟨[], 0⟩ [[10], [20, 21], [30]] =
      some ⟨[[10], [20, 21], [30]], 4⟩ ∧
    WritableStream.runReads ⟨[[10], [20, 21], [30]], 4⟩ [some 2, none] =
      .ok ([10, 30, 0, 0], ⟨[], 0⟩) ∧
    [10, 30, 0, 0] ≠ [10] ++ [20, 21] ++ [30] := by
  decide

/-- C5 (code bug): `read(2)` on the buffered chunks `[1]`, `[2]`, `[3]`
(head chunk not larger than `maxBytes`, `maxBytes` not larger than the
fill level) reaches the flagged-wrong third branch and throws a
`RangeError` from an out-of-bounds `TypedArray.set` instead of
completing normally with at most 2 bytes. -/
theorem c5_read_throws_rangeerror :
    WritableStream.readSync ⟨[[1], [2], [3]], 3⟩ (some 2) = .error .rangeError := by
  decide

/-- Deleting a descriptor removes its ID from the table. -/
theorem tableGet_tableDelete (t : FdTable) (d : FileDescriptor) :
    tableGet (tableDelete t d) d.fd = none := by
  unfold tableGet tableDelete
  rw [List.find?_eq_none]
  intro x hx
  have hmem : (x.fd != d.fd) = true := (List.mem_filter.mp hx).2
  simp only [bne_iff_ne, ne_eq] at hmem
  simp [hmem]

/-- C6: `fd_close` on an open descriptor ID removes the descriptor from
the descriptor table for every driver-close outcome (the removal lives
in the `finally` branch, so it happens even when the driver's close
throws) and runs its disposer; afterwards `getFileDescriptor` — the
lookup every syscall entry performs first — throws
`WasiError(Errno.badf)` for that ID. -/
theorem c6_fd_close_removes_descriptor (t : FdTable) (fd : Nat)
    (fdesc : FileDescriptor) (co : FileDescriptor → Except HostErr Unit)
    (h : tableGet t fd = some fdesc) :
    (fd_close_impl t co fd).table = tableDelete t fdesc ∧
    tableGet (fd_close_impl t co fd).table fd = none ∧
    getFileDescriptor (fd_close_impl t co fd).table fd = .error ⟨Errno.badf⟩ ∧
    (fd_close_impl t co fd).disposerRan = fdesc.hasDispose := by
  have hfd : fdesc.fd = fd := by
    have h' := h
    unfold tableGet at h'
    have := List.find?_some h'
    simpa using this
  have htab : (fd_close_impl t co fd).table = tableDelete t fdesc := by
    unfold fd_close_impl
    rw [h]
  have hget : tableGet (tableDelete t fdesc) fd = none := by
    rw [← hfd]
    exact tableGet_tableDelete t fdesc
  refine ⟨htab, ?_, ?_, ?_⟩
  · rw [htab]
    exact hget
  · rw [htab]
    unfold getFileDescriptor
    rw [hget]
  · unfold fd_close_impl
    rw [h]

/-- Witness for C6 at a concrete table and a driver close that throws. -/
theorem c6_fd_close_removes_descriptor_witness :
    tableGet ([⟨3, 1, 0, true⟩] : FdTable) 3 = some ⟨3, 1, 0, true⟩ ∧
    (fd_close_impl ([⟨3, 1, 0, true⟩] : FdTable) (fun _ => .error .other) 3).table =
      tableDelete ([⟨3, 1, 0, true⟩] : FdTable) ⟨3, 1, 0, true⟩ ∧
    tableGet (fd_close_impl ([⟨3, 1, 0, true⟩] : FdTable)
      (fun _ => .error .other) 3).table 3 = none ∧
    getFileDescriptor (fd_close_impl ([⟨3, 1, 0, true⟩] : FdTable)
      (fun _ => .error .other) 3).table 3 = .error ⟨Errno.badf⟩ ∧
    (fd_close_impl ([⟨3, 1, 0, true⟩] : FdTable)
      (fun _ => .error .other) 3).disposerRan = true := by
  have h : tableGet ([⟨3, 1, 0, true⟩] : FdTable) 3 = some ⟨3, 1, 0, true⟩ := rfl
  have hc := c6_fd_close_removes_descriptor ([⟨3, 1, 0, true⟩] : FdTable) 3
    ⟨3, 1, 0, true⟩ (fun _ => .error .other) h
  exact ⟨h, hc.1, hc.2.1, hc.2.2.1, hc.2.2.2⟩

/-- C4: a path-taking syscall on a descriptor of a non-root mount driver
whose relative path normalizes to escape the mount (the normalized path
starts with `..`) fails with `WasiError(Errno.noent)` when the composing
root driver's virtual-path translation finds no mount containing the
target, or when no root descriptor exists; the dispatcher's
`handleError` turns that `WasiError` into the no-such-entity errno. -/
theorem c4_escape_unmapped_noent (ctx : PathCtx) (fdesc : FileDescriptor)
    (path : String)
    (habs : isAbsolute path = false)
    (hroot : ctx.hasVirtualRoot = true)
    (hnotroot : ctx.currentIsVirtualRoot = false)
    (hfs : ctx.currentIsFs = true)
    (hdd : startsWithDotDot (normalizePath path) = true)
    (hmiss : ctx.makeVirtualPath (normalizePath path) = none ∨
      ctx.rootDescriptor = none) :
    getDeviceDriverWithPath ctx fdesc path = .error ⟨Errno.noent⟩ ∧
    handleError (.wasi Errno.noent) = Errno.noent := by
  constructor
  · rcases hmiss with hm | hr
    · simp [getDeviceDriverWithPath, habs, hroot, hnotroot, hfs, hdd, hm]
    · cases hmv : ctx.makeVirtualPath (normalizePath path) with
      | none => simp [getDeviceDriverWithPath, habs, hroot, hnotroot, hfs, hdd, hmv]
      | some vp =>
        simp [getDeviceDriverWithPath, habs, hroot, hnotroot, hfs, hdd, hmv, hr]
  · rfl

/-- Witness for C4 at the concrete path `../x` with a translation that
maps nothing. -/
theorem c4_escape_unmapped_noent_witness :
    isAbsolute "../x" = false ∧
    startsWithDotDot (normalizePath "../x") = true ∧
    getDeviceDriverWithPath ⟨true, false, true, fun _ => none, none⟩
      ⟨0, 0, 0, false⟩ "../x" = .error ⟨Errno.noent⟩ := by
  have h := c4_escape_unmapped_noent ⟨true, false, true, fun _ => none, none⟩
    ⟨0, 0, 0, false⟩ "../x" (by decide) rfl rfl rfl (by decide) (Or.inl rfl)
  exact ⟨by decide, by decide, h.1⟩

/-- The packing loop never packs more entries than remain. -/
theorem packList_count_le (l : List ReaddirEntry) (s : Nat) :
    (packList l s).1 ≤ l.length := by
  induction l generalizing s with
  | nil => simp [packList]
  | cons e rest ih =>
    unfold packList
    by_cases h : direntSize ≤ s
    · simp only [h, if_true, List.length_cons]
      exact Nat.succ_le_succ (ih _)
    · simp [h]

/-- With at least one dirent header's worth of space, the packing loop
packs at least one of the remaining entries. -/
theorem packList_pos (e : ReaddirEntry) (rest : List ReaddirEntry) (s : Nat)
    (h : direntSize ≤ s) : 1 ≤ (packList (e :: rest) s).1 := by
  unfold packList
  simp [h]

/-- When the cookie is 0 or the cache already holds the listing, one
`fd_readdir` call packs from the cookie index of the listing and reports
exhaustion or a full buffer. -/
theorem fd_readdir_step_main (cache : Option (List ReaddirEntry))
    (entries : List ReaddirEntry) (cookie bufLen : Nat)
    (hpre : cookie = 0 ∨ cache = some entries) :
    fd_readdir_step cache entries cookie bufLen =
      (if cookie + (packList (entries.drop cookie) bufLen).1 = entries.length then
         ⟨Errno.success, (packList (entries.drop cookie) bufLen).2,
          (entries.drop cookie).take (packList (entries.drop cookie) bufLen).1,
          cookie + (packList (entries.drop cookie) bufLen).1, none⟩
       else
         ⟨Errno.success, bufLen,
          (entries.drop cookie).take (packList (entries.drop cookie) bufLen).1,
          cookie + (packList (entries.drop cookie) bufLen).1, some entries⟩) := by
  rcases hpre with h | h
  · subst h
    simp [fd_readdir_step]
  · subst h
    unfold fd_readdir_step
    by_cases hc : cookie = 0
    · subst hc
      simp
    · simp [hc]

/-- The pagination protocol started at any cookie of a cached listing
(or at cookie 0) with a buffer of at least one dirent header yields
exactly the remaining entries, in order. -/
theorem runPagination_drop (entries : List ReaddirEntry) (bufLen : Nat)
    (hbuf : direntSize ≤ bufLen) :
    ∀ fuel cookie cache, cookie ≤ entries.length →
      entries.length - cookie < fuel →
      (cookie = 0 ∨ cache = some entries) →
      (runPagination cache entries cookie bufLen fuel).1 = entries.drop cookie := by
  intro fuel
  induction fuel with
  | zero =>
    intro cookie cache _ hf _
    omega
  | succ fuel ih =>
    intro cookie cache hle hf hpre
    unfold runPagination
    rw [fd_readdir_step_main cache entries cookie bufLen hpre]
    set r := packList (entries.drop cookie) bufLen with hr
    have hn_le : r.1 ≤ entries.length - cookie := by
      have := packList_count_le (entries.drop cookie) bufLen
      rwa [List.length_drop] at this
    by_cases hdone : cookie + r.1 = entries.length
    · simp only [hdone, if_true]
      have hlen : r.1 = (entries.drop cookie).length := by
        rw [List.length_drop]
        omega
      rw [hlen, List.take_length]
    · simp only [hdone, if_false]
      have hne : entries.drop cookie ≠ [] := by
        intro hnil
        have : entries.length ≤ cookie := List.drop_eq_nil_iff.mp hnil
        have : cookie = entries.length := by omega
        have : r.1 = 0 := by
          rw [hr, List.drop_eq_nil_iff.mpr (by omega)]
          simp [packList]
        omega
      have hpos : 1 ≤ r.1 := by
        cases he : entries.drop cookie with
        | nil => exact absurd he hne
        | cons e rest =>
          rw [hr, he]
          exact packList_pos e rest bufLen hbuf
      have hrec := ih (cookie + r.1) (some entries) (by omega) (by omega) (Or.inr rfl)
      simp only [hrec]
      have hdd : entries.drop (cookie + r.1) = (entries.drop cookie).drop r.1 := by
        rw [List.drop_drop, Nat.add_comm]
      rw [hdd, List.take_append_drop]

/-- C3 (amended: the output buffer must hold at least one dirent header,
i.e. `bufLen ≥ 24`): starting from cookie 0 and repeatedly calling
`fd_readdir` with the last returned `d_next` cookie enumerates every
directory entry exactly once, in the same order as the driver's single
unpaginated listing; each call packs from the cookie index, and — for
any call on the cached listing — when the listing is exhausted the
reported used size is the byte count actually packed and the cached
snapshot is discarded, while when the buffer fills mid-listing the
reported used size is the full buffer length and the snapshot is
kept.  Every call returns `Errno.success`. -/
theorem c3_readdir_pagination_enumerates (entries : List ReaddirEntry)
    (bufLen fuel cookie : Nat) (cache : Option (List ReaddirEntry))
    (hbuf : direntSize ≤ bufLen) (hfuel : entries.length < fuel)
    (hpre : cookie = 0 ∨ cache = some entries) :
    (runPagination none entries 0 bufLen fuel).1 = entries ∧
    ((fd_readdir_step cache entries cookie bufLen).nextCookie = entries.length →
      (fd_readdir_step cache entries cookie bufLen).bufUsed =
        (packList (entries.drop cookie) bufLen).2 ∧
      (fd_readdir_step cache entries cookie bufLen).cache = none) ∧
    ((fd_readdir_step cache entries cookie bufLen).nextCookie ≠ entries.length →
      (fd_readdir_step cache entries cookie bufLen).bufUsed = bufLen ∧
      (fd_readdir_step cache entries cookie bufLen).cache = some entries) ∧
    (fd_readdir_step cache entries cookie bufLen).errno = Errno.success := by
  have hmain := fd_readdir_step_main cache entries cookie bufLen hpre
  refine ⟨?_, ?_, ?_, ?_⟩
  · have := runPagination_drop entries bufLen hbuf fuel 0 none (Nat.zero_le _)
      (by omega) (Or.inl rfl)
    simpa using this
  · intro hend
    by_cases hdone : cookie + (packList (entries.drop cookie) bufLen).1 = entries.length
    · rw [hmain, if_pos hdone]
      exact ⟨rfl, rfl⟩
    · exfalso
      rw [hmain, if_neg hdone] at hend
      exact hdone hend
  · intro hend
    by_cases hdone : cookie + (packList (entries.drop cookie) bufLen).1 = entries.length
    · exfalso
      rw [hmain, if_pos hdone] at hend
      exact hend hdone
    · rw [hmain, if_neg hdone]
      exact ⟨rfl, rfl⟩
  · rw [hmain]
    by_cases hdone : cookie + (packList (entries.drop cookie) bufLen).1 = entries.length
    · rw [if_pos hdone]
    · rw [if_neg hdone]

/-- Witness for C3 at a concrete two-entry directory paged through a
25-byte buffer (one entry per call). -/
theorem c3_readdir_pagination_enumerates_witness :
    direntSize ≤ 25 ∧ ([⟨1, 3, [97]⟩, ⟨2, 4, [98]⟩] : List ReaddirEntry).length < 3 ∧
    (runPagination none [⟨1, 3, [97]⟩, ⟨2, 4, [98]⟩] 0 25 3).1 =
      [⟨1, 3, [97]⟩, ⟨2, 4, [98]⟩] := by
  have h := c3_readdir_pagination_enumerates [⟨1, 3, [97]⟩, ⟨2, 4, [98]⟩] 25 3 0 none
    (by decide) (by decide) (Or.inl rfl)
  exact ⟨by decide, by decide, h.1⟩

/-- C3 counterexample: with an output buffer smaller than one dirent
header (here 0 bytes) the claim fails for a one-entry directory — every
call packs nothing (the reported used size equals the buffer length and
the snapshot is retained, so the cookie can never advance) and the
enumeration never yields the entry. -/
theorem c3_small_buffer_enumerates_nothing :
    (runPagination none [⟨1, 3, [97]⟩] 0 0 5).1 = [] ∧
    ([] : List ReaddirEntry) ≠ [⟨1, 3, [97]⟩] ∧
    (fd_readdir_step none [⟨1, 3, [97]⟩] 0 0).bufUsed = 0 ∧
    (fd_readdir_step none [⟨1, 3, [97]⟩] 0 0).packed = [] ∧
    (fd_readdir_step none [⟨1, 3, [97]⟩] 0 0).nextCookie = 0 ∧
    (fd_readdir_step none [⟨1, 3, [97]⟩] 0 0).cache = some [⟨1, 3, [97]⟩] := by
  decide

/-- `settleOne` never changes the key of an entry. -/
theorem settleOne_fst (id : Nat) (st : WritableStream.PromiseState)
    (q : Nat × WritableStream.PromiseState) :
    (WritableStream.settleOne id st q).1 = q.1 := by
  unfold WritableStream.settleOne
  by_cases h : (q.1 == id) = true
  · simp only [h, if_true]
    cases q with
    | mk k v => cases v <;> rfl
  · simp only [Bool.not_eq_true] at h
    simp [h]

/-- `settle` transforms the entry `find?` locates for a key pointwise
(keys are never changed). -/
theorem find?_settle (ps : List (Nat × WritableStream.PromiseState))
    (id id' : Nat) (st : WritableStream.PromiseState) :
    (WritableStream.settle ps id' st).find? (fun p => p.1 == id) =
      (ps.find? (fun p => p.1 == id)).map (WritableStream.settleOne id' st) := by
  induction ps with
  | nil => rfl
  | cons q rest ih =>
    unfold WritableStream.settle
    rw [List.map_cons]
    simp only [List.find?]
    rw [settleOne_fst]
    cases hq : (q.1 == id) with
    | true => rfl
    | false => exact ih

/-- Once a waiter's promise is rejected with `DestroyError`, further
`settle` folds leave it rejected (`reject`/`resolve` are no-ops on a
settled promise). -/
theorem find?_foldl_settle_keep (ids : List Nat)
    (ps : List (Nat × WritableStream.PromiseState)) (id : Nat)
    (h : ps.find? (fun p => p.1 == id) = some (id, .rejectedDestroy)) :
    ((ids.foldl (fun a i => WritableStream.settle a i .rejectedDestroy) ps).find?
      (fun p => p.1 == id)) = some (id, .rejectedDestroy) := by
  induction ids generalizing ps with
  | nil => exact h
  | cons i rest ih =>
    rw [List.foldl_cons]
    apply ih
    rw [find?_settle, h]
    by_cases hi : (id == i) = true
    · simp [WritableStream.settleOne, hi]
    · simp only [Bool.not_eq_true] at hi
      simp [WritableStream.settleOne, hi]

/-- Folding `settle`s with `DestroyError` over a list of waiter ids
rejects the promise of every id in the list whose promise was pending
(or already rejected). -/
theorem find?_foldl_settle_mem (ids : List Nat)
    (ps : List (Nat × WritableStream.PromiseState)) (id : Nat)
    (hmem : id ∈ ids)
    (h : ps.find? (fun p => p.1 == id) = some (id, .pending) ∨
         ps.find? (fun p => p.1 == id) = some (id, .rejectedDestroy)) :
    ((ids.foldl (fun a i => WritableStream.settle a i .rejectedDestroy) ps).find?
      (fun p => p.1 == id)) = some (id, .rejectedDestroy) := by
  induction ids generalizing ps with
  | nil => cases hmem
  | cons i rest ih =>
    rw [List.foldl_cons]
    by_cases hi : id = i
    · subst hi
      apply find?_foldl_settle_keep
      rw [find?_settle]
      rcases h with h | h <;> rw [h] <;> simp [WritableStream.settleOne]
    · rcases List.mem_cons.mp hmem with he | hmem'
      · exact absurd he hi
      · apply ih _ hmem'
        have hne : (id == i) = false := by
          simpa using hi
        rw [find?_settle]
        rcases h with h | h <;> rw [h] <;> simp [WritableStream.settleOne, hne]
  
/-- `destroy`'s promise rejections, write-waiters first then
read-waiters, are one `settle` fold over the concatenated waiter ids. -/
theorem destroy_promises (s : WritableStream.PipeM) :
    (WritableStream.destroy s).promises =
      ((s.fillWaiters.map Prod.snd) ++ s.dataWaiters).foldl
        (fun a i => WritableStream.settle a i .rejectedDestroy) s.promises := by
  unfold WritableStream.destroy
  rw [List.foldl_append, List.foldl_map]

/-- C8 (amended: this covers waiters that are suspended at the moment of
destruction; a read issued after `destroy` is not released by the past
destruction): `destroy()` empties the buffer and rejects the promise of
every waiter queued on `awaitForFillLevel` or `awaitForData` with a
`DestroyError`; a read suspended on such a promise resolves with an
empty byte array rather than throwing, and a write suspended on such a
promise completes without throwing, its chunk discarded. -/
theorem c8_destroy_releases_suspended_waiters (s : WritableStream.PipeM)
    (id target : Nat) (c : List Nat) (mb : Option Nat)
    (hw : id ∈ s.fillWaiters.map Prod.snd ++ s.dataWaiters)
    (hp : s.promises.find? (fun p => p.1 == id) = some (id, .pending)) :
    (WritableStream.destroy s).chunks = [] ∧
    (WritableStream.destroy s).fillLevel = 0 ∧
    WritableStream.promiseState (WritableStream.destroy s) id = .rejectedDestroy ∧
    WritableStream.readResume (WritableStream.destroy s) id mb =
      some (.ok ([], ⟨[], 0⟩)) ∧
    WritableStream.writeResume (WritableStream.destroy s) id c target =
      some (.ok (WritableStream.destroy s)) := by
  have hps : WritableStream.promiseState (WritableStream.destroy s) id =
      .rejectedDestroy := by
    unfold WritableStream.promiseState
    rw [destroy_promises, find?_foldl_settle_mem _ _ _ hw (Or.inl hp)]
  refine ⟨rfl, rfl, hps, ?_, ?_⟩
  · simp only [WritableStream.readResume, hps]
    rfl
  · simp only [WritableStream.writeResume, hps]

/-- Witness for C8 at a concrete stream with one suspended reader. -/
theorem c8_destroy_releases_suspended_waiters_witness :
    (7 : Nat) ∈ (([] : List (Nat × Nat)).map Prod.snd) ++ [7] ∧
    ([(7, WritableStream.PromiseState.pending)].find? (fun p => p.1 == 7) =
      some (7, .pending)) ∧
    WritableStream.readResume
      (WritableStream.destroy ⟨[], 0, [], [7], [(7, .pending)], 8⟩) 7 none =
      some (.ok ([], ⟨[], 0⟩)) ∧
    WritableStream.writeResume
      (WritableStream.destroy ⟨[], 0, [], [7], [(7, .pending)], 8⟩) 7 [1] 0 =
      some (.ok (WritableStream.destroy ⟨[], 0, [], [7], [(7, .pending)], 8⟩)) := by
  have h := c8_destroy_releases_suspended_waiters ⟨[], 0, [], [7], [(7, .pending)], 8⟩
    7 0 [1] none (by decide) rfl
  exact ⟨by decide, rfl, h.2.2.2.1, h.2.2.2.2⟩

/-- C8 counterexample: a read issued *after* `destroy` does not resolve
with an empty byte array.  On a freshly destroyed pipe the read suspends
(pushing a new pending promise); a later `write([5])` resolves that
promise, and the read completes with `[5]` — a non-empty array — so the
destruction is not observed by subsequent reads. -/
theorem c8_read_after_destroy_gets_data :
    WritableStream.readStart (WritableStream.destroy WritableStream.PipeM.init) =
      .suspended 0 ⟨[], 0, [], [0], [(0, .pending)], 1⟩ ∧
    WritableStream.writeStart ⟨[], 0, [], [0], [(0, .pending)], 1⟩ [5] =
      .done ⟨[[5]], 1, [], [], [(0, .resolved)], 1⟩ ∧
    WritableStream.readResume ⟨[[5]], 1, [], [], [(0, .resolved)], 1⟩ 0 none =
      some (.ok ([5], ⟨[], 0⟩)) ∧
    ([5] : List Nat) ≠ [] := by
  decide
